import Mathlib

/-!
# Verification of `beep.c` (djCommit)

Shallow embedding of `src/beep.c` and proofs of the specification's claims.

The program is single-threaded and fully synchronous, so we model each C
function as a pure Lean function returning a *trace* of its observable
effects, in order.  All `int` values occurring in the program (frequencies,
durations, counts, array indices) are nonnegative literals or copies of
them, so we embed them as `Nat`.

Two levels of effects:
* `Event` — effects as seen by the sequencer and the CLI dispatcher: a call
  to the tone emitter (`play_beep`) or a `usleep` (microseconds).
* `BeepEffect` — effects inside the tone emitter `play_beep`, which is
  platform-conditional (`#ifdef __APPLE__` / `__linux__` / other).
-/

/-- A sequencer-level effect: `emit f d` is a call `play_beep(f, d)`;
`sleep us` is a call `usleep(us)` (microseconds). -/
inductive Event where
  | emit (frequency duration : Nat)
  | sleep (us : Nat)
  deriving DecidableEq, Repr

/-- The three compile-time platform cases of `play_beep`:
`__APPLE__`, `__linux__`, and everything else. -/
inductive Platform where
  | apple
  | linux
  | other
  deriving DecidableEq, Repr

/-- An effect inside `play_beep`:
* `systemSound` — `AudioServicesPlaySystemSound(...)` (macOS branch);
* `toneOn arg` — `ioctl(STDOUT_FILENO, KDMKTONE, arg)` starting the tone;
* `waitUs us` — `usleep(us)`;
* `toneOff` — `ioctl(STDOUT_FILENO, KDMKTONE, 0)` stopping the tone;
* `writeBell` — `printf("\x07")` (the bell control character);
* `flushStdout` — `fflush(stdout)`. -/
inductive BeepEffect where
  | systemSound
  | toneOn (arg : Nat)
  | waitUs (us : Nat)
  | toneOff
  | writeBell
  | flushStdout
  deriving DecidableEq, Repr

/-- `play_beep(frequency, duration_ms)` from `src/beep.c` lines 17-36.
The platform is fixed at compile time; on Linux the success of the
`KDMKTONE` ioctl is an environment input, modelled by `ioctlOk`.

On `__APPLE__` it plays the user-preferred alert sound and returns.
On `__linux__` it starts a console tone via ioctl; if the ioctl succeeds it
sleeps `duration_ms * 1000` microseconds and stops the tone, otherwise it
writes a bell character and flushes stdout.  On any other platform it
writes a bell character and flushes stdout.  (In the C source the ioctl
argument is `(frequency << 16) | (1193180 / frequency)`.) -/
def play_beep (p : Platform) (ioctlOk : Bool) (frequency duration_ms : Nat) :
    List BeepEffect :=
  match p with
  | Platform.apple => [BeepEffect.systemSound]
  | Platform.linux =>
    if ioctlOk then
      [BeepEffect.toneOn ((frequency <<< 16) ||| (1193180 / frequency)),
       BeepEffect.waitUs (duration_ms * 1000),
       BeepEffect.toneOff]
    else
      [BeepEffect.writeBell, BeepEffect.flushStdout]
  | Platform.other => [BeepEffect.writeBell, BeepEffect.flushStdout]

/-- `play_sequence(frequencies, durations, count)` from `src/beep.c`
lines 39-51, as a sequencer-level trace.

The C loop runs `i` from `0` to `count - 1`; here the lists are consumed
head-first and the `Nat` argument counts the remaining iterations, so in
the step case `n` iterations remain after the current one and the C guard
`i < count - 1` for the 50 ms inter-note pause is `n ≠ 0`.  Reading an
array past its end is undefined behaviour in C; the model returns `none`
in that case. -/
def play_sequence : List Nat → List Nat → Nat → Option (List Event)
  | _, _, 0 => some []
  | f :: fs, d :: ds, n + 1 =>
    (play_sequence fs ds n).map (fun rest =>
      (if f = 0 then Event.sleep (d * 1000) else Event.emit f d)
        :: ((if n = 0 then [] else [Event.sleep 50000]) ++ rest))
  | _, _, _ => none

/-- The `freqs` table of the `"clown"` branch (`src/beep.c` lines 64-70). -/
def clown_freqs : List Nat :=
  [523, 523, 523, 523, 523, 523, 523, 523,
   659, 659, 659, 659, 659, 659, 659, 659,
   523, 523, 523, 523, 523, 523, 523, 523,
   440, 440, 440, 440, 440, 440, 440, 440,
   523, 659, 784, 880, 784, 659, 523, 440]

/-- The `durations` table of the `"clown"` branch (`src/beep.c` lines 71-77). -/
def clown_durations : List Nat :=
  [200, 200, 200, 200, 200, 200, 200, 200,
   200, 200, 200, 200, 200, 200, 200, 200,
   200, 200, 200, 200, 200, 200, 200, 200,
   200, 200, 200, 200, 200, 200, 200, 200,
   300, 300, 300, 400, 300, 300, 300, 400]

/-- The `freqs` table of the `"mario"` branch (`src/beep.c` lines 82-87). -/
def mario_freqs : List Nat :=
  [659, 659, 0, 659, 0, 523, 659, 0, 784, 0, 0, 0, 392, 0, 0, 0,
   523, 0, 392, 0, 330, 0, 440, 0, 494, 0, 466, 440, 0, 392, 659, 784,
   880, 0, 659, 523, 440, 0, 392, 0, 330, 0, 440, 0, 494, 0, 466, 440,
   392, 0, 659, 523, 440, 0, 392, 0, 330, 0, 440, 0, 494, 0, 466, 440]

/-- The `durations` table of the `"mario"` branch (`src/beep.c` lines 88-93). -/
def mario_durations : List Nat :=
  [200, 200, 100, 200, 100, 200, 200, 100, 200, 100, 100, 100, 200, 100, 100, 100,
   200, 100, 200, 100, 200, 100, 200, 100, 200, 100, 200, 200, 100, 200, 200, 200,
   200, 100, 200, 200, 200, 100, 200, 100, 200, 100, 200, 100, 200, 100, 200, 200,
   200, 100, 200, 200, 200, 100, 200, 100, 200, 100, 200, 100, 200, 100, 200, 200]

/-- The `freqs` table of the `"desperado"` branch (`src/beep.c` lines 98-103). -/
def desperado_freqs : List Nat :=
  [523, 0, 659, 0, 784, 0, 659, 0, 523, 0, 440, 0, 392, 0, 440, 0,
   523, 0, 659, 0, 784, 0, 880, 0, 784, 0, 659, 0, 523, 0, 440, 0,
   392, 0, 440, 0, 523, 0, 659, 0, 523, 0, 440, 0, 392, 0, 330, 0,
   440, 0, 523, 0, 659, 0, 784, 0, 659, 0, 523, 0, 440, 0, 392, 0]

/-- The `durations` table of the `"desperado"` branch (`src/beep.c` lines 104-109). -/
def desperado_durations : List Nat :=
  [400, 100, 400, 100, 400, 100, 400, 100, 400, 100, 400, 100, 400, 100, 400, 100,
   400, 100, 400, 100, 400, 100, 400, 100, 400, 100, 400, 100, 400, 100, 400, 100,
   400, 100, 400, 100, 400, 100, 400, 100, 400, 100, 400, 100, 400, 100, 400, 100,
   400, 100, 400, 100, 400, 100, 400, 100, 400, 100, 400, 100, 400, 100, 400, 100]

/-- Observable result of one run of `main`: the exit code, the lines
printed to stdout (each `printf` call, without its trailing newline), and
the sequencer-level effect trace (`none` would mean an out-of-bounds array
read inside `play_sequence`). -/
structure RunResult where
  exitCode : Nat
  output : List String
  events : Option (List Event)
  deriving DecidableEq, Repr

/-- `main(argc, argv)` from `src/beep.c` lines 53-122, with `argv` as a
list of strings (`argv[0]` is the program name, so `argc < 2` is
`argv.length < 2`).  `strcmp(a, b) == 0` is string equality, exact and
case-sensitive. -/
def main_run (argv : List String) : RunResult :=
  if argv.length < 2 then
    { exitCode := 1,
      output := ["Usage: " ++ argv.getD 0 "" ++ " <sound_type>",
                 "Sound types: clown, mario, desperado, test"],
      events := some [] }
  else
    let sound_type := argv.getD 1 ""
    if sound_type = "clown" then
      { exitCode := 0, output := [],
        events := play_sequence clown_freqs clown_durations 40 }
    else if sound_type = "mario" then
      { exitCode := 0, output := [],
        events := play_sequence mario_freqs mario_durations 64 }
    else if sound_type = "desperado" then
      { exitCode := 0, output := [],
        events := play_sequence desperado_freqs desperado_durations 64 }
    else if sound_type = "test" then
      { exitCode := 0, output := [], events := some [Event.emit 800 300] }
    else
      { exitCode := 1, output := ["Unknown sound type: " ++ sound_type],
        events := some [] }

/-- Modelled from the spec (sections 4.2 and 8), as the reference against
which the sequencer trace is compared: each note becomes a tone emission,
or a silent sleep of its duration when its frequency is 0, and a fixed
50 ms pause is inserted between consecutive notes but not after the last. -/
def noteEvent (f d : Nat) : Event :=
  if f = 0 then Event.sleep (d * 1000) else Event.emit f d

/-- Modelled from the spec (sections 4.2 and 8): the full reference
rendering of a song given as (frequency, duration) pairs. -/
def renderSong : List (Nat × Nat) → List Event
  | [] => []
  | [(f, d)] => [noteEvent f d]
  | (f, d) :: rest => noteEvent f d :: Event.sleep 50000 :: renderSong rest

/-! ## General lemmas about the sequencer -/

/-- The rest guard in `play_sequence` (line 41) diverts every zero-frequency
note to a `usleep`, so no trace it produces contains a call
`play_beep(0, _)`. -/
theorem play_sequence_no_zero_emit (fs ds : List Nat) (count : Nat)
    (tr : List Event) (h : play_sequence fs ds count = some tr) :
    ∀ d, Event.emit 0 d ∉ tr := by
  induction count generalizing fs ds tr with
  | zero =>
    simp only [play_sequence, Option.some.injEq] at h
    subst h; simp
  | succ n ih =>
    cases fs with
    | nil => simp [play_sequence] at h
    | cons f fs =>
      cases ds with
      | nil => simp [play_sequence] at h
      | cons d ds =>
        cases hrec : play_sequence fs ds n with
        | none => simp [play_sequence, hrec] at h
        | some rest =>
          simp only [play_sequence, hrec, Option.map_some', Option.some.injEq] at h
          subst h
          intro d' hmem
          rcases List.mem_cons.mp hmem with hhd | htl
          · by_cases hf : f = 0
            · simp [hf] at hhd
            · simp [hf] at hhd
              exact hf hhd.1.symm
          · rcases List.mem_append.mp htl with hp | hr
            · by_cases hn : n = 0 <;> simp [hn] at hp
            · exact ih fs ds rest hrec d' hr

/-- In a trace produced by `play_sequence`, the event for note `i` sits at
position `2 * i`: it is a sleep of the note's duration when the note's
frequency is 0, and a `play_beep` call with the note's frequency and
duration otherwise. -/
theorem play_sequence_note_at (fs ds : List Nat) (count : Nat)
    (tr : List Event) (h : play_sequence fs ds count = some tr)
    (i : Nat) (hi : i < count) :
    tr[2 * i]? = some (if fs.getD i 0 = 0 then Event.sleep (ds.getD i 0 * 1000)
      else Event.emit (fs.getD i 0) (ds.getD i 0)) := by
  induction count generalizing fs ds tr i with
  | zero => omega
  | succ n ih =>
    cases fs with
    | nil => simp [play_sequence] at h
    | cons f fs =>
      cases ds with
      | nil => simp [play_sequence] at h
      | cons d ds =>
        cases hrec : play_sequence fs ds n with
        | none => simp [play_sequence, hrec] at h
        | some rest =>
          simp only [play_sequence, hrec, Option.map_some', Option.some.injEq] at h
          subst h
          cases i with
          | zero => simp [List.getD]
          | succ j =>
            have hn : n ≠ 0 := by omega
            have h2 : 2 * (j + 1) = 2 * j + 1 + 1 := by ring
            simp only [hn, if_false, List.cons_append, List.nil_append, h2,
              List.getElem?_cons_succ, List.getD_cons_succ]
            exact ih fs ds rest hrec j (by omega)

/-- In a trace produced by `play_sequence`, every position `2 * i + 1` with
`i + 1 < count` holds the fixed 50 ms inter-note pause, and the trace has
length `2 * count - 1` (or `0` when `count = 0`), so there is no pause
after the final note. -/
theorem play_sequence_length_and_pauses (fs ds : List Nat) (count : Nat)
    (tr : List Event) (h : play_sequence fs ds count = some tr) :
    tr.length = (if count = 0 then 0 else 2 * count - 1) ∧
    ∀ i, i + 1 < count → tr[2 * i + 1]? = some (Event.sleep 50000) := by
  induction count generalizing fs ds tr with
  | zero =>
    simp only [play_sequence, Option.some.injEq] at h
    subst h; simp
  | succ n ih =>
    cases fs with
    | nil => simp [play_sequence] at h
    | cons f fs =>
      cases ds with
      | nil => simp [play_sequence] at h
      | cons d ds =>
        cases hrec : play_sequence fs ds n with
        | none => simp [play_sequence, hrec] at h
        | some rest =>
          simp only [play_sequence, hrec, Option.map_some', Option.some.injEq] at h
          subst h
          obtain ⟨ihlen, ihpause⟩ := ih fs ds rest hrec
          by_cases hn : n = 0
          · subst hn
            simp only [play_sequence, Option.some.injEq] at hrec
            subst hrec
            refine ⟨by simp, ?_⟩
            intro i hi; omega
          · simp only [hn, if_false] at ihlen
            constructor
            · rw [if_neg (by omega : ¬(n + 1 = 0))]
              simp only [hn, if_false, List.cons_append, List.nil_append,
                List.length_cons, ihlen]
              omega
            · intro i hi
              simp only [hn, if_false, List.cons_append, List.nil_append]
              cases i with
              | zero => simp
              | succ j =>
                have h2 : 2 * (j + 1) + 1 = 2 * j + 1 + 1 + 1 := by ring
                simp only [h2, List.getElem?_cons_succ]
                exact ihpause j (by omega)

/-! ## Claims -/

/-- C1: for every argument string given as the sound type, the program
returns exit code 0 iff the argument is exactly (case-sensitively) one of
`"clown"`, `"mario"`, `"desperado"`, `"test"`; for every other argument it
prints an error message containing the argument and returns exit code 1. -/
theorem main_exit_iff_known_song (prog arg : String) :
    ((main_run [prog, arg]).exitCode = 0 ↔
      arg ∈ ["clown", "mario", "desperado", "test"]) ∧
    (arg ∉ ["clown", "mario", "desperado", "test"] →
      (main_run [prog, arg]).exitCode = 1 ∧
      (main_run [prog, arg]).output = ["Unknown sound type: " ++ arg]) := by
  by_cases h1 : arg = "clown"
  · subst h1
    exact ⟨⟨fun _ => by decide, fun _ => rfl⟩, fun hmem => absurd (by decide) hmem⟩
  by_cases h2 : arg = "mario"
  · subst h2
    exact ⟨⟨fun _ => by decide, fun _ => rfl⟩, fun hmem => absurd (by decide) hmem⟩
  by_cases h3 : arg = "desperado"
  · subst h3
    exact ⟨⟨fun _ => by decide, fun _ => rfl⟩, fun hmem => absurd (by decide) hmem⟩
  by_cases h4 : arg = "test"
  · subst h4
    exact ⟨⟨fun _ => by decide, fun _ => rfl⟩, fun hmem => absurd (by decide) hmem⟩
  · have hmem : arg ∉ (["clown", "mario", "desperado", "test"] : List String) := by
      simp [h1, h2, h3, h4]
    have hrun : main_run [prog, arg] =
        { exitCode := 1, output := ["Unknown sound type: " ++ arg],
          events := some [] } := by
      simp [main_run, h1, h2, h3, h4]
    refine ⟨⟨fun h0 => ?_, fun hm => absurd hm hmem⟩,
      fun _ => ⟨by rw [hrun], by rw [hrun]⟩⟩
    rw [hrun] at h0
    simp at h0

/-- Witness for C1 at the unknown sound type `"foo"`. -/
theorem main_exit_iff_known_song_app :
    (main_run ["beep", "foo"]).exitCode = 1 ∧
    (main_run ["beep", "foo"]).output = ["Unknown sound type: foo"] := by
  have h := (main_exit_iff_known_song "beep" "foo").2 (by decide)
  exact ⟨h.1, h.2.trans (by decide)⟩

/-- C2: with an argument list of length less than two, the program prints
the usage text and returns exit code 1, with an empty effect trace (no
sequencer or tone-emitter activity). -/
theorem main_no_args_usage (argv : List String) (h : argv.length < 2) :
    (main_run argv).exitCode = 1 ∧
    (main_run argv).output =
      ["Usage: " ++ argv.getD 0 "" ++ " <sound_type>",
       "Sound types: clown, mario, desperado, test"] ∧
    (main_run argv).events = some [] := by
  simp [main_run, h]

/-- Witness for C2 at the one-element argument list `["beep"]`. -/
theorem main_no_args_usage_app :
    (main_run ["beep"]).exitCode = 1 ∧
    (main_run ["beep"]).output =
      ["Usage: beep <sound_type>", "Sound types: clown, mario, desperado, test"] ∧
    (main_run ["beep"]).events = some [] := by
  have h := main_no_args_usage ["beep"] (by decide)
  exact ⟨h.1, h.2.1.trans (by decide), h.2.2⟩

/-- C3: invoking the program with `"test"` returns exit code 0, and the
effect trace is exactly one tone-emitter call with frequency 800 and
duration 300 ms — no other note events. -/
theorem main_test_single_beep (prog : String) :
    (main_run [prog, "test"]).exitCode = 0 ∧
    (main_run [prog, "test"]).events = some [Event.emit 800 300] :=
  ⟨rfl, rfl⟩

/-- C4: invoking the program with `"clown"` returns exit code 0 and its
trace is exactly the reference rendering (`renderSong`) of the 40-entry
clown table, so it contains exactly 40 note events in the table's
frequency/duration order. -/
theorem main_clown_trace (prog : String) :
    (main_run [prog, "clown"]).exitCode = 0 ∧
    (main_run [prog, "clown"]).events =
      some (renderSong (clown_freqs.zip clown_durations)) ∧
    (clown_freqs.zip clown_durations).length = 40 := by
  refine ⟨rfl, ?_, by decide⟩
  have h : play_sequence clown_freqs clown_durations 40 =
      some (renderSong (clown_freqs.zip clown_durations)) := by decide
  exact h

/-- C5: in every trace the sequencer produces, a zero-frequency note never
reaches the tone emitter (no `play_beep(0, _)` call appears anywhere), and
the event for note `i` (at trace position `2 * i`) is a sleep of exactly
that note's duration when its frequency is 0, and a tone-emitter call with
that note's frequency and duration otherwise. -/
theorem play_sequence_rest_and_tone (fs ds : List Nat) (count : Nat)
    (tr : List Event) (h : play_sequence fs ds count = some tr) :
    (∀ d, Event.emit 0 d ∉ tr) ∧
    ∀ i, i < count →
      tr[2 * i]? = some (if fs.getD i 0 = 0 then Event.sleep (ds.getD i 0 * 1000)
        else Event.emit (fs.getD i 0) (ds.getD i 0)) :=
  ⟨play_sequence_no_zero_emit fs ds count tr h,
   fun i hi => play_sequence_note_at fs ds count tr h i hi⟩

/-- Witness for C5 on the two-note song (523, 100 ms), (rest, 200 ms). -/
theorem play_sequence_rest_and_tone_app :
    Event.emit 0 200 ∉
      [Event.emit 523 100, Event.sleep 50000, Event.sleep 200000] ∧
    [Event.emit 523 100, Event.sleep 50000, Event.sleep 200000][2 * 1]? =
      some (Event.sleep 200000) := by
  have h := play_sequence_rest_and_tone [523, 0] [100, 200] 2
    [Event.emit 523 100, Event.sleep 50000, Event.sleep 200000] rfl
  exact ⟨h.1 200, (h.2 1 (by omega)).trans (by decide)⟩

/-- C6: every trace the sequencer produces has length `2 * count - 1` for
`count ≥ 1` notes (and `0` for an empty song), with the fixed 50 ms pause
at every position `2 * i + 1` for `i + 1 < count`: exactly `count - 1`
inter-note pauses, one between each pair of consecutive notes and none
after the final note. -/
theorem play_sequence_pause_between_notes (fs ds : List Nat) (count : Nat)
    (tr : List Event) (h : play_sequence fs ds count = some tr) :
    tr.length = (if count = 0 then 0 else 2 * count - 1) ∧
    ∀ i, i + 1 < count → tr[2 * i + 1]? = some (Event.sleep 50000) :=
  play_sequence_length_and_pauses fs ds count tr h

/-- Witness for C6 on the two-note song (523, 100 ms), (rest, 200 ms). -/
theorem play_sequence_pause_between_notes_app :
    ([Event.emit 523 100, Event.sleep 50000, Event.sleep 200000] :
      List Event).length = 3 ∧
    [Event.emit 523 100, Event.sleep 50000, Event.sleep 200000][2 * 0 + 1]? =
      some (Event.sleep 50000) := by
  have h := play_sequence_pause_between_notes [523, 0] [100, 200] 2
    [Event.emit 523 100, Event.sleep 50000, Event.sleep 200000] rfl
  exact ⟨h.1.trans (by decide), h.2 0 (by omega)⟩

/-- C7 counterexample: on the bell-fallback path (Linux with a failing
ioctl) a `play_beep(800, 300)` call writes the bell and flushes stdout but
performs no wait at all — its trace contains no `usleep`, in particular
not the 300 ms one the claim requires on every path. -/
theorem play_beep_fallback_no_wait_cex :
    play_beep Platform.linux false 800 300 =
      [BeepEffect.writeBell, BeepEffect.flushStdout] ∧
    BeepEffect.waitUs (300 * 1000) ∉ play_beep Platform.linux false 800 300 :=
  ⟨rfl, by decide⟩

/-- C7 (amended): a tone-emitter call with positive frequency and duration
blocks for the given duration exactly on the Linux native-tone success
path; on every other path (macOS system sound, bell fallback, non-Linux
platforms) the call performs no wait and returns immediately. -/
theorem play_beep_wait_only_native (f d : Nat) (_hf : 0 < f) (_hd : 0 < d)
    (p : Platform) (ok : Bool) :
    BeepEffect.waitUs (d * 1000) ∈ play_beep p ok f d ↔
      p = Platform.linux ∧ ok = true := by
  cases p <;> cases ok <;> simp [play_beep]

/-- Witness for C7's amended claim at `play_beep(800, 300)` on the Linux
native-tone success path. -/
theorem play_beep_wait_only_native_app :
    BeepEffect.waitUs (300 * 1000) ∈ play_beep Platform.linux true 800 300 :=
  (play_beep_wait_only_native 800 300 (by decide) (by decide)
    Platform.linux true).2 ⟨rfl, rfl⟩

/-- C8: whenever the platform tone mechanism is absent (neither macOS nor
Linux) or fails (Linux with a failing `KDMKTONE` ioctl), `play_beep`
writes the bell control character to stdout and flushes it; `play_beep` is
a total function into a plain effect trace, so every call returns normally
to its caller and no error is surfaced. -/
theorem play_beep_bell_fallback (p : Platform) (ok : Bool) (f d : Nat)
    (h : p = Platform.other ∨ (p = Platform.linux ∧ ok = false)) :
    play_beep p ok f d = [BeepEffect.writeBell, BeepEffect.flushStdout] := by
  rcases h with h | ⟨h, hok⟩
  · subst h; rfl
  · subst h; subst hok; rfl

/-- Witness for C8 at `play_beep(440, 100)` on Linux with a failing ioctl. -/
theorem play_beep_bell_fallback_app :
    play_beep Platform.linux false 440 100 =
      [BeepEffect.writeBell, BeepEffect.flushStdout] :=
  play_beep_bell_fallback Platform.linux false 440 100 (Or.inr ⟨rfl, rfl⟩)

/-- C9: on every execution of the program, the tone emitter is never
invoked with frequency 0: no trace of `main` contains a `play_beep(0, _)`
call, so the divisor `frequency` in the Linux tone expression
`1193180 / frequency` is nonzero at every `play_beep` call `main` causes. -/
theorem main_never_emits_zero_frequency (argv : List String)
    (tr : List Event) (h : (main_run argv).events = some tr) :
    ∀ d, Event.emit 0 d ∉ tr := by
  simp only [main_run] at h
  split at h
  · simp only [Option.some.injEq] at h
    subst h; simp
  · split at h
    · exact play_sequence_no_zero_emit _ _ _ tr h
    · split at h
      · exact play_sequence_no_zero_emit _ _ _ tr h
      · split at h
        · exact play_sequence_no_zero_emit _ _ _ tr h
        · split at h
          · simp only [Option.some.injEq] at h
            subst h; intro d; simp
          · simp only [Option.some.injEq] at h
            subst h; simp

/-- Witness for C9 on the run `beep test`. -/
theorem main_never_emits_zero_frequency_app :
    Event.emit 0 100 ∉ [Event.emit 800 300] :=
  main_never_emits_zero_frequency ["beep", "test"] [Event.emit 800 300] rfl 100

/-- C10: every `play_sequence` call site passes a count equal to the
length of both arrays it supplies (40 for clown, 64 for mario and
desperado), and on every run of `main` the sequencer's indexing stays in
bounds (the trace is never the out-of-bounds marker `none`). -/
theorem song_calls_in_bounds :
    clown_freqs.length = 40 ∧ clown_durations.length = 40 ∧
    mario_freqs.length = 64 ∧ mario_durations.length = 64 ∧
    desperado_freqs.length = 64 ∧ desperado_durations.length = 64 ∧
    (play_sequence clown_freqs clown_durations 40).isSome = true ∧
    (play_sequence mario_freqs mario_durations 64).isSome = true ∧
    (play_sequence desperado_freqs desperado_durations 64).isSome = true ∧
    ∀ argv : List String, (main_run argv).events.isSome = true := by
  refine ⟨by decide, by decide, by decide, by decide, by decide, by decide,
    by decide, by decide, by decide, ?_⟩
  intro argv
  simp only [main_run]
  split
  · rfl
  · split
    · decide
    · split
      · decide
      · split
        · decide
        · split
          · rfl
          · rfl
